import Mathlib

/-!
Verification development for the podcast-intelligence episode processing
pipeline: the episode status state machine, error classifier, transcript
chunker, rate-limited API client, and the frontend pagination window.

The backend implementation (`backend/main.py`, `backend/services/groq_service.py`,
`backend/utils/error_formatter.py`) is not present in this repository snapshot;
only its documentation and frontend callers are.  Components from those files
are therefore modelled from the specification (and the code snippets quoted in
`BUGFIX_403_ERRORS.md`, `USER_FRIENDLY_ERRORS.md`, `START_HERE.md`,
`PAID_TIER_OPTIMIZATIONS.md`), as marked on each definition.  The pagination
component is embedded directly from `frontend/src/components/Pagination.jsx`.
-/

/-- Episode lifecycle status.  Modelled from the spec: §4.1 states
`new → pending → downloading → transcribing → summarizing → completed | failed`. -/
inductive Status where
  | new
  | pending
  | downloading
  | transcribing
  | summarizing
  | completed
  | failed
deriving DecidableEq, Repr

/-- Structured summary record.  Modelled from the spec: §3, four free-text
fields (executive_summary, key_themes, notable_quotes, actionable_insights). -/
structure Summary where
  executive_summary : String
  key_themes : String
  notable_quotes : String
  actionable_insights : String
deriving DecidableEq, Repr

/-- Persisted episode row.  Modelled from the spec: §3 data model
(processing-relevant fields only). -/
structure Episode where
  podcastId : Nat
  guid : String
  status : Status
  errorMessage : Option String
  transcript : Option String
  summary : Option Summary
deriving DecidableEq, Repr

/-- Result of a `requestProcessing` call: success-without-work on an already
completed episode, a newly scheduled asynchronous run, or rejection because a
run is already in flight. -/
inductive ReqResult where
  | successNoop
  | scheduled
  | rejected
deriving DecidableEq, Repr

/-- Whether a status is an active in-flight stage
(`downloading`/`transcribing`/`summarizing`). -/
def isActive : Status → Bool
  | .downloading => true
  | .transcribing => true
  | .summarizing => true
  | _ => false

/-- Modelled from the spec: §4.1 `requestProcessing` — `backend/main.py` is
missing from the snapshot.  If status is `completed`, return success
immediately without reprocessing; if status is an active in-flight stage,
reject; if status is `new`/`pending`/`failed`, transition to `pending`, clear
`error_message`, and schedule asynchronous execution (the `failed` branch is
corroborated by the `backend/main.py` snippet quoted in
`BUGFIX_403_ERRORS.md`). -/
def requestProcessing (ep : Episode) : ReqResult × Episode :=
  match ep.status with
  | .completed => (.successNoop, ep)
  | .downloading => (.rejected, ep)
  | .transcribing => (.rejected, ep)
  | .summarizing => (.rejected, ep)
  | .new => (.scheduled, { ep with status := .pending, errorMessage := none })
  | .pending => (.scheduled, { ep with status := .pending, errorMessage := none })
  | .failed => (.scheduled, { ep with status := .pending, errorMessage := none })

/-- Number of asynchronous runs scheduled by one `requestProcessing` result. -/
def runsScheduled : ReqResult → Nat
  | .scheduled => 1
  | _ => 0

/-- Position of a status in the forward stage order (used to talk about
"backward" movement). -/
def stageRank : Status → Nat
  | .new => 0
  | .pending => 1
  | .downloading => 2
  | .transcribing => 3
  | .summarizing => 4
  | .completed => 5
  | .failed => 6

/-- The canonical forward stage order of persisted statuses in one run. -/
def stageOrder : List Status :=
  [.pending, .downloading, .transcribing, .summarizing, .completed]

/-- Boolean subsequence test (order-preserving, not necessarily contiguous). -/
def isSubseqOf [DecidableEq α] : List α → List α → Bool
  | [], _ => true
  | _ :: _, [] => false
  | a :: l1, b :: l2 => if a = b then isSubseqOf l1 l2 else isSubseqOf (a :: l1) l2

/-- Modelled from the spec: §4.1 `runPipeline` — the background worker in
`backend/main.py` is missing from the snapshot.  Given the success/failure of
the three stages (download, transcribe, summarize), the sequence of statuses
persisted during one run, starting from the `pending` persisted at acceptance:
each stage persists its in-flight status before working, a stage failure
terminates the run with `failed`, and the run ends with `completed`.
This matches the status-update pattern quoted in the development guide
(`src/unnamed/part_006`, backend checklist). -/
def runTrace (dl tr sm : Bool) : List Status :=
  .pending :: .downloading ::
    (if dl then
      .transcribing ::
        (if tr then
          .summarizing :: (if sm then [.completed] else [.failed])
        else [.failed])
    else [.failed])

/-- Naive substring test on character lists. -/
def hasSubstring (pat : List Char) : List Char → Bool
  | [] => pat.isEmpty
  | c :: rest => pat.isPrefixOf (c :: rest) || hasSubstring pat rest

/-- `true` when the raw error text contains any of the given patterns. -/
def matchesAny (pats : List String) (raw : String) : Bool :=
  pats.any fun p => hasSubstring p.toList raw.toList

/-- The closed taxonomy of user-facing error causes (spec §4.4, ordered by
precedence; the same order appears as the "Error Message Hierarchy" in
`BUGFIX_403_ERRORS.md`). -/
inductive ErrorCategory where
  | rateLimit
  | tooLarge
  | accessDenied
  | notFound
  | unsupportedFormat
  | network
  | authConfig
  | unknown
deriving DecidableEq, Repr

/-- Modelled from the spec: provider quota / rate-limit detection patterns
(`error_formatter.py` is missing from the snapshot; examples from
`USER_FRIENDLY_ERRORS.md`: 429, "rate_limit_exceeded", tokens-per-minute). -/
def rateLimitPatterns : List String :=
  ["rate limit", "rate_limit", "429", "tokens per minute", "quota"]

/-- Modelled from the spec: payload-too-large detection patterns
(413 / "too large", cf. `USER_FRIENDLY_ERRORS.md` example 3). -/
def tooLargePatterns : List String :=
  ["too large", "Too Large", "413"]

/-- Modelled from the spec: access-denied detection patterns (HTTP 401/403;
the 403/401 check quoted from `error_formatter.py` in
`BUGFIX_403_ERRORS.md`). -/
def accessDeniedPatterns : List String :=
  ["403", "Forbidden", "401", "Unauthorized"]

/-- Modelled from the spec: not-found detection patterns (HTTP 404). -/
def notFoundPatterns : List String :=
  ["404", "Not Found"]

/-- Modelled from the spec: unsupported/corrupt media format detection
patterns (cf. `USER_FRIENDLY_ERRORS.md` example 4: FFmpeg / codec errors). -/
def unsupportedFormatPatterns : List String :=
  ["format", "codec", "Invalid data"]

/-- Modelled from the spec: network/timeout detection patterns. -/
def networkPatterns : List String :=
  ["timeout", "timed out", "Connection", "connection"]

/-- Modelled from the spec: authentication/configuration error patterns
(invalid credentials, cf. `USER_FRIENDLY_ERRORS.md` example 8). -/
def authConfigPatterns : List String :=
  ["API key", "AuthenticationError", "invalid_api_key"]

/-- Modelled from the spec: §4.4 `classify` — `error_formatter.py` is missing
from the snapshot.  Resolves a raw error string to exactly one category of
the fixed taxonomy, in precedence order with first match winning: quota/rate
limit, then payload too large, then access denied (401/403), then not found
(404), then unsupported format, then network/timeout, then
authentication/configuration, else the fallback.  Pure and total. -/
def classify (raw : String) : ErrorCategory :=
  if matchesAny rateLimitPatterns raw then .rateLimit
  else if matchesAny tooLargePatterns raw then .tooLarge
  else if matchesAny accessDeniedPatterns raw then .accessDenied
  else if matchesAny notFoundPatterns raw then .notFound
  else if matchesAny unsupportedFormatPatterns raw then .unsupportedFormat
  else if matchesAny networkPatterns raw then .network
  else if matchesAny authConfigPatterns raw then .authConfig
  else .unknown

/-- Modelled from the spec: the user-facing message for each category
(wording from spec §4.4). -/
def messageFor : ErrorCategory → String
  | .rateLimit => "temporary capacity limit, will retry automatically."
  | .tooLarge => "input exceeds size limit."
  | .accessDenied => "source blocked the request."
  | .notFound => "resource no longer available."
  | .unsupportedFormat => "unsupported audio format."
  | .network => "connectivity issue, will retry."
  | .authConfig => "service misconfiguration, not user-fixable."
  | .unknown => "Something went wrong. Please retry the episode."

/-- The stored user-facing error message for a raw error. -/
def classifyMessage (raw : String) : String :=
  messageFor (classify raw)

/-- Modelled from the spec: §4.1/§7 — how one background run mutates the
persisted row, used to define the reachable persisted states.  A run started
by `requestProcessing` persists each stage transition immediately; a failure
at any in-flight stage stores the classified error message
(`classifyMessage`); `transcript` is stored on successful transcription and
`summary` on successful summarization.  This matches the status-update and
error-handling patterns quoted in the development guide
(`src/unnamed/part_006`, backend checklist). -/
inductive StepTo : Episode → Episode → Prop where
  | accept (ep : Episode) :
      (ep.status = .new ∨ ep.status = .pending ∨ ep.status = .failed) →
      StepTo ep { ep with status := .pending, errorMessage := none }
  | startDownload (ep : Episode) :
      ep.status = .pending →
      StepTo ep { ep with status := .downloading }
  | startTranscribe (ep : Episode) :
      ep.status = .downloading →
      StepTo ep { ep with status := .transcribing }
  | startSummarize (ep : Episode) (t : String) :
      ep.status = .transcribing →
      StepTo ep { ep with status := .summarizing, transcript := some t }
  | complete (ep : Episode) (s : Summary) :
      ep.status = .summarizing →
      StepTo ep { ep with status := .completed, summary := some s }
  | fail (ep : Episode) (raw : String) :
      isActive ep.status = true →
      StepTo ep { ep with status := .failed, errorMessage := some (classifyMessage raw) }

/-- A freshly created episode row: status `new`, no error, no results
(spec §3 lifecycle, §4.1 "if no Episode row exists, create one in `new`"). -/
def freshEpisode (pid : Nat) (g : String) : Episode :=
  { podcastId := pid, guid := g, status := .new,
    errorMessage := none, transcript := none, summary := none }

/-- Persisted episode states reachable from creation through the state
machine's transitions. -/
inductive Reachable : Episode → Prop where
  | created (pid : Nat) (g : String) : Reachable (freshEpisode pid g)
  | step {a b : Episode} : Reachable a → StepTo a b → Reachable b

/-- Modelled from the spec: §4.2 `estimateSize` — `groq_service.py` is missing
from the snapshot.  A cheap deterministic proxy for request cost, proportional
to character count; `START_HERE.md` documents the source's estimator as
"1 token ≈ 4 characters".  Text is embedded as a list of characters. -/
def estimateSize (text : List Char) : Nat :=
  text.length / 4

/-- Modelled from the spec: §4.2 `chunk` — splits the text into an ordered
sequence of non-overlapping maximal pieces of at most `n` characters whose
in-order concatenation is the original text (so the chunk count is the
minimum possible). -/
def chunk (n : Nat) (text : List α) : List (List α) :=
  if text.isEmpty then []
  else if n = 0 then [text]
  else text.take n :: chunk n (text.drop n)
termination_by text.length
decreasing_by
  rename_i h1 h2
  simp only [List.isEmpty_iff] at h1
  have hl : 0 < text.length := List.length_pos.mpr h1
  simp only [List.length_drop]
  omega

/-- Character budget of one chunk for a token budget of `maxTok`
(the 4-characters-per-token estimate inverted). -/
def chunkChars (maxTok : Nat) : Nat :=
  4 * maxTok

/-- Modelled from the spec: `_chunk_transcript` in `groq_service.py` (missing
from the snapshot) — split a transcript into pieces whose estimated token
count stays within the per-request budget. -/
def chunkTranscript (maxTok : Nat) (text : List Char) : List (List Char) :=
  chunk (chunkChars maxTok) text

/-- Invocation counts of the summarization paths: direct single-call
summaries, per-chunk partial summaries, and final merge calls. -/
structure CallCounts where
  single : Nat
  perChunk : Nat
  merge : Nat
deriving DecidableEq, Repr

/-- Modelled from the spec: §4.2 `summarizeChunked` — invokes `summarizeOne`
once per chunk, collects the partial summaries, then performs one final merge
call combining them into the four target fields. -/
def summarizeChunked (summarizeOne : List Char → String)
    (mergeChunks : List String → Summary)
    (chunks : List (List Char)) : Summary × CallCounts :=
  let partials := chunks.map summarizeOne
  (mergeChunks partials, ⟨0, chunks.length, 1⟩)

/-- Modelled from the spec: `summarize_transcript` in `groq_service.py`
(missing from the snapshot) — if the estimated size is within the chunk
threshold, use the single-call path (one direct summarize invocation,
chunking skipped); otherwise chunk the transcript and use
`summarizeChunked`.  `PAID_TIER_OPTIMIZATIONS.md` documents the source's
threshold test as `estimated_tokens > threshold`. -/
def summarizeTranscript (maxTok : Nat)
    (summarizeWhole : List Char → Summary)
    (summarizeOne : List Char → String)
    (mergeChunks : List String → Summary)
    (text : List Char) : Summary × CallCounts :=
  if estimateSize text ≤ maxTok then
    (summarizeWhole text, ⟨1, 0, 0⟩)
  else
    summarizeChunked summarizeOne mergeChunks (chunkTranscript maxTok text)

/-- Outcome of one attempt of a provider call, as seen by the Rate-Limited
API Client: success, a rate-limit rejection (with the provider-specified wait
when one was parseable from the error text), or another transient
network/timeout condition. -/
inductive ApiOutcome where
  | ok (value : String)
  | rateLimited (retryAfter : Option Nat)
  | transient (detail : String)
deriving DecidableEq, Repr

/-- `true` exactly on successful outcomes. -/
def ApiOutcome.isOk : ApiOutcome → Bool
  | .ok _ => true
  | _ => false

/-- Modelled from the spec: fixed safety margin added to a provider-specified
wait (`START_HERE.md` documents the source's buffer as 5 seconds). -/
def safetyMargin : Nat := 5

/-- Modelled from the spec: fixed default backoff used when no wait time is
parseable from a rate-limit error. -/
def defaultBackoff : Nat := 60

/-- Modelled from the spec: cap on total attempts (reference behavior:
3 attempts, as in `START_HERE.md` "Max 3 retry attempts per operation"). -/
def maxAttempts : Nat := 3

/-- Modelled from the spec: §4.3 sleep policy before a retry — a rate-limit
error with a parsed wait sleeps that wait plus the safety margin; a
rate-limit error with no parseable wait sleeps the fixed default backoff;
any other transient condition sleeps an exponential backoff (`2 ^ attempt`,
as documented in `START_HERE.md`). -/
def backoffFor (o : ApiOutcome) (attempt : Nat) : Nat :=
  match o with
  | .ok _ => 0
  | .rateLimited (some d) => d + safetyMargin
  | .rateLimited none => defaultBackoff
  | .transient _ => 2 ^ attempt

/-- Modelled from the spec: §4.3 retry loop of the Rate-Limited API Client —
`attempt` is the index of the current attempt, `remaining` the number of
attempts still allowed; `outcomes i` is what the provider call returns on
attempt `i`.  Returns the final result (the last error surfaced as terminal
once attempts are exhausted) together with the list of sleeps performed
before each retry. -/
def callLoop (outcomes : Nat → ApiOutcome) :
    Nat → Nat → (Except ApiOutcome String × List Nat)
  | attempt, 0 => (.error (outcomes attempt), [])
  | attempt, remaining + 1 =>
    match outcomes attempt with
    | .ok v => (.ok v, [])
    | e =>
      if remaining = 0 then (.error e, [])
      else
        let rest := callLoop outcomes (attempt + 1) remaining
        (rest.1, backoffFor e attempt :: rest.2)

/-- Modelled from the spec: §4.3 `call` — run the provider call with the full
retry budget. -/
def callWithRetry (outcomes : Nat → ApiOutcome) : Except ApiOutcome String × List Nat :=
  callLoop outcomes 0 maxAttempts

/-- Maximum number of page links shown by the pagination component
(`Pagination.jsx` line 21: `const maxVisible = 5`). -/
def maxVisible : Int := 5

/-- The visible page-number window computed by `Pagination.jsx`
(lines 18–33): `none` when the component renders nothing
(`totalPages <= 1`), otherwise `some (startPage, endPage)` with
`startPage = max 1 (currentPage - ⌊maxVisible/2⌋)`,
`endPage = min totalPages (startPage + maxVisible - 1)` and, when the window
is narrower than `maxVisible`, `startPage` re-clamped to
`max 1 (endPage - maxVisible + 1)`.  Integers model JS numbers (all values
are small integers here). -/
def paginationWindow (currentPage totalPages : Int) : Option (Int × Int) :=
  if totalPages ≤ 1 then none
  else
    let startPage0 := max 1 (currentPage - maxVisible / 2)
    let endPage := min totalPages (startPage0 + maxVisible - 1)
    let startPage :=
      if endPage - startPage0 + 1 < maxVisible then max 1 (endPage - maxVisible + 1)
      else startPage0
    some (startPage, endPage)

/-- Sample rows used by the witnesses. -/
def sampleCompleted : Episode :=
  { podcastId := 1, guid := "ep-1", status := .completed,
    errorMessage := none, transcript := some "text",
    summary := some ⟨"e", "k", "q", "a"⟩ }

/-- Sample failed row used by the witnesses. -/
def sampleFailed : Episode :=
  { podcastId := 1, guid := "ep-2", status := .failed,
    errorMessage := some "Access denied", transcript := none, summary := none }

theorem chunk_nil (n : Nat) : chunk n ([] : List α) = [] := by
  rw [chunk]
  simp

theorem chunk_cons (n : Nat) (text : List α) (h : text ≠ []) (hn : n ≠ 0) :
    chunk n text = text.take n :: chunk n (text.drop n) := by
  rw [chunk]
  simp [h, hn]

theorem chunk_ne_nil (n : Nat) (text : List α) (h : text ≠ []) :
    chunk n text ≠ [] := by
  rw [chunk]
  by_cases hn : n = 0 <;> simp [h, hn]

theorem chunk_join_aux (n : Nat) :
    ∀ (k : Nat) (text : List α), text.length ≤ k → (chunk n text).flatten = text := by
  intro k
  induction k with
  | zero =>
    intro text h
    have ht : text = [] := List.eq_nil_of_length_eq_zero (Nat.le_zero.mp h)
    subst ht
    simp [chunk_nil]
  | succ k ih =>
    intro text h
    by_cases ht : text = []
    · subst ht; simp [chunk_nil]
    · by_cases hn : n = 0
      · subst hn
        rw [chunk]
        simp [ht]
      · rw [chunk_cons n text ht hn]
        simp only [List.flatten_cons]
        rw [ih (text.drop n) ?_]
        · exact List.take_append_drop n text
        · have hl : 0 < text.length := List.length_pos.mpr ht
          simp only [List.length_drop]
          omega

/-- In-order concatenation of the chunks reconstructs the text. -/
theorem chunk_join (n : Nat) (text : List α) : (chunk n text).flatten = text :=
  chunk_join_aux n text.length text le_rfl

theorem chunk_chunkLength_aux (n : Nat) (hn : n ≠ 0) :
    ∀ (k : Nat) (text : List α), text.length ≤ k →
      ∀ c ∈ chunk n text, c.length ≤ n := by
  intro k
  induction k with
  | zero =>
    intro text h c hc
    have ht : text = [] := List.eq_nil_of_length_eq_zero (Nat.le_zero.mp h)
    subst ht
    simp [chunk_nil] at hc
  | succ k ih =>
    intro text h c hc
    by_cases ht : text = []
    · subst ht; simp [chunk_nil] at hc
    · rw [chunk_cons n text ht hn] at hc
      rcases List.mem_cons.mp hc with h1 | h2
      · subst h1
        simp [List.length_take_le]
      · refine ih (text.drop n) ?_ c h2
        have hl : 0 < text.length := List.length_pos.mpr ht
        simp only [List.length_drop]
        omega

/-- Every chunk stays within the size budget (for a positive budget). -/
theorem chunk_chunkLength (n : Nat) (hn : 0 < n) (text : List α) :
    ∀ c ∈ chunk n text, c.length ≤ n :=
  chunk_chunkLength_aux n (Nat.pos_iff_ne_zero.mp hn) text.length text le_rfl

theorem chunk_count_le_aux (n : Nat) (hn : n ≠ 0) :
    ∀ (m : Nat) (text : List α), text.length ≤ m * n →
      (chunk n text).length ≤ m := by
  intro m
  induction m with
  | zero =>
    intro text h
    have ht : text = [] := by
      have : text.length = 0 := by omega
      exact List.eq_nil_of_length_eq_zero this
    subst ht
    simp [chunk_nil]
  | succ m ih =>
    intro text h
    by_cases ht : text = []
    · subst ht; simp [chunk_nil]
    · rw [chunk_cons n text ht hn]
      simp only [List.length_cons]
      have hrec : (text.drop n).length ≤ m * n := by
        simp only [List.length_drop]
        have : (m + 1) * n = m * n + n := by ring
        omega
      have := ih (text.drop n) hrec
      omega

theorem flatten_length_le (n : Nat) :
    ∀ (cs : List (List α)), (∀ c ∈ cs, c.length ≤ n) →
      cs.flatten.length ≤ cs.length * n := by
  intro cs
  induction cs with
  | nil => intro _; simp
  | cons c cs ih =>
    intro h
    have hc : c.length ≤ n := h c (List.mem_cons_self c cs)
    have hcs : cs.flatten.length ≤ cs.length * n :=
      ih fun x hx => h x (List.mem_cons_of_mem c hx)
    simp only [List.flatten_cons, List.length_append, List.length_cons]
    have : (cs.length + 1) * n = cs.length * n + n := by ring
    omega

/-- The chunk count is minimal: any decomposition of the text into pieces of
size at most `n` has at least as many pieces. -/
theorem chunk_count_minimal (n : Nat) (hn : 0 < n) (text : List α)
    (cs : List (List α)) (hjoin : cs.flatten = text) (hsize : ∀ c ∈ cs, c.length ≤ n) :
    (chunk n text).length ≤ cs.length := by
  refine chunk_count_le_aux n (Nat.pos_iff_ne_zero.mp hn) cs.length text ?_
  have := flatten_length_le n cs hsize
  rw [hjoin] at this
  exact this

/-- An oversized text is split into at least two chunks. -/
theorem chunk_count_ge_two (n : Nat) (hn : n ≠ 0) (text : List α)
    (h : n < text.length) : 2 ≤ (chunk n text).length := by
  have ht : text ≠ [] := by
    intro he
    subst he
    simp at h
  rw [chunk_cons n text ht hn]
  have hd : text.drop n ≠ [] := by
    intro he
    have := congrArg List.length he
    simp only [List.length_drop, List.length_nil] at this
    omega
  have := chunk_ne_nil n (text.drop n) hd
  have hpos : 0 < (chunk n (text.drop n)).length := List.length_pos.mpr this
  simp only [List.length_cons]
  omega

theorem callLoop_spec (outcomes : Nat → ApiOutcome) :
    ∀ (remaining attempt : Nat),
      (callLoop outcomes attempt remaining).2.length + 1 ≤ max remaining 1 ∧
      (∀ i, i < (callLoop outcomes attempt remaining).2.length →
        (callLoop outcomes attempt remaining).2.getD i 0 =
          backoffFor (outcomes (attempt + i)) (attempt + i) ∧
        (outcomes (attempt + i)).isOk = false) ∧
      ((∀ j, j < remaining → (outcomes (attempt + j)).isOk = false) → 1 ≤ remaining →
        (callLoop outcomes attempt remaining).1 = .error (outcomes (attempt + (remaining - 1))) ∧
        (callLoop outcomes attempt remaining).2.length = remaining - 1) := by
  intro remaining
  induction remaining with
  | zero =>
    intro attempt
    refine ⟨by simp [callLoop], by simp [callLoop], fun _ h => by omega⟩
  | succ rem ih =>
    intro attempt
    cases ho : outcomes attempt with
    | ok v =>
      refine ⟨by simp [callLoop, ho], by simp [callLoop, ho], ?_⟩
      intro hall _
      have := hall 0 (by omega)
      rw [Nat.add_zero, ho] at this
      simp [ApiOutcome.isOk] at this
    | rateLimited ra =>
      by_cases hr : rem = 0
      · subst hr
        refine ⟨by simp [callLoop, ho], by simp [callLoop, ho], ?_⟩
        intro _ _
        simp [callLoop, ho]
      · have hrest := ih (attempt + 1)
        refine ⟨?_, ?_, ?_⟩
        · simp only [callLoop, ho, if_neg hr]
          have := hrest.1
          simp only [List.length_cons]
          omega
        · intro i hi
          simp only [callLoop, ho, if_neg hr] at hi ⊢
          cases i with
          | zero => simp [ho, ApiOutcome.isOk]
          | succ i' =>
            simp only [List.length_cons] at hi
            have h2 := hrest.2.1 i' (by omega)
            simp only [List.getD_cons_succ]
            have harith : attempt + 1 + i' = attempt + (i' + 1) := by omega
            rw [harith] at h2
            exact h2
        · intro hall _
          have hall' : ∀ j, j < rem → (outcomes (attempt + 1 + j)).isOk = false := by
            intro j hj
            have := hall (j + 1) (by omega)
            have harith : attempt + (j + 1) = attempt + 1 + j := by omega
            rwa [harith] at this
          have h3 := hrest.2.2 hall' (by omega)
          simp only [callLoop, ho, if_neg hr]
          constructor
          · rw [h3.1]
            have harith : attempt + 1 + (rem - 1) = attempt + (rem + 1 - 1) := by omega
            rw [harith]
          · simp only [List.length_cons]
            omega
    | transient d =>
      by_cases hr : rem = 0
      · subst hr
        refine ⟨by simp [callLoop, ho], by simp [callLoop, ho], ?_⟩
        intro _ _
        simp [callLoop, ho]
      · have hrest := ih (attempt + 1)
        refine ⟨?_, ?_, ?_⟩
        · simp only [callLoop, ho, if_neg hr]
          have := hrest.1
          simp only [List.length_cons]
          omega
        · intro i hi
          simp only [callLoop, ho, if_neg hr] at hi ⊢
          cases i with
          | zero => simp [ho, ApiOutcome.isOk]
          | succ i' =>
            simp only [List.length_cons] at hi
            have h2 := hrest.2.1 i' (by omega)
            simp only [List.getD_cons_succ]
            have harith : attempt + 1 + i' = attempt + (i' + 1) := by omega
            rw [harith] at h2
            exact h2
        · intro hall _
          have hall' : ∀ j, j < rem → (outcomes (attempt + 1 + j)).isOk = false := by
            intro j hj
            have := hall (j + 1) (by omega)
            have harith : attempt + (j + 1) = attempt + 1 + j := by omega
            rwa [harith] at this
          have h3 := hrest.2.2 hall' (by omega)
          simp only [callLoop, ho, if_neg hr]
          constructor
          · rw [h3.1]
            have harith : attempt + 1 + (rem - 1) = attempt + (rem + 1 - 1) := by omega
            rw [harith]
          · simp only [List.length_cons]
            omega

/-- C1: for every episode whose persisted status is `completed`,
`requestProcessing` returns success immediately without scheduling any work,
leaves the transcript and summary fields unchanged, and leaves the status
`completed` (an idempotent no-op). -/
theorem requestProcessing_completed_noop (ep : Episode) (h : ep.status = .completed) :
    requestProcessing ep = (.successNoop, ep) ∧
    runsScheduled (requestProcessing ep).1 = 0 ∧
    (requestProcessing ep).2.transcript = ep.transcript ∧
    (requestProcessing ep).2.summary = ep.summary ∧
    (requestProcessing ep).2.status = .completed := by
  simp [requestProcessing, h, runsScheduled]

/-- Witness for C1 at a concrete completed episode. -/
theorem requestProcessing_completed_noop_witness :
    requestProcessing sampleCompleted = (.successNoop, sampleCompleted) ∧
    runsScheduled (requestProcessing sampleCompleted).1 = 0 ∧
    (requestProcessing sampleCompleted).2.transcript = sampleCompleted.transcript ∧
    (requestProcessing sampleCompleted).2.summary = sampleCompleted.summary ∧
    (requestProcessing sampleCompleted).2.status = .completed :=
  requestProcessing_completed_noop sampleCompleted rfl

/-- C2: a `requestProcessing` call on an episode in an active in-flight stage
(`downloading`/`transcribing`/`summarizing`) is rejected and leaves the state
unchanged; consequently two calls in quick succession — the first accepted
from a startable state, the second arriving while the first run is in an
active stage — schedule exactly one run, the second being rejected rather
than queued. -/
theorem requestProcessing_mutual_exclusion :
    (∀ ep : Episode, isActive ep.status = true →
       requestProcessing ep = (.rejected, ep)) ∧
    (∀ (ep : Episode) (a : Status),
       (ep.status = .new ∨ ep.status = .pending ∨ ep.status = .failed) →
       isActive a = true →
       (requestProcessing ep).1 = .scheduled ∧
       requestProcessing { (requestProcessing ep).2 with status := a } =
         (.rejected, { (requestProcessing ep).2 with status := a }) ∧
       runsScheduled (requestProcessing ep).1 +
         runsScheduled (requestProcessing { (requestProcessing ep).2 with status := a }).1
           = 1) := by
  constructor
  · intro ep h
    cases hs : ep.status <;> simp [isActive, hs] at h ⊢ <;>
      simp [requestProcessing, hs]
  · intro ep a hstart hact
    have h1 : (requestProcessing ep).1 = .scheduled := by
      rcases hstart with h | h | h <;> simp [requestProcessing, h]
    refine ⟨h1, ?_, ?_⟩
    · cases ha : a <;> simp [isActive, ha] at hact ⊢ <;>
        simp [requestProcessing]
    · cases ha : a <;> simp [isActive, ha] at hact ⊢ <;>
        rw [h1] <;> simp [requestProcessing, runsScheduled]

/-- Witness for C2: a downloading episode rejects, and a new→downloading
double call schedules exactly one run. -/
theorem requestProcessing_mutual_exclusion_witness :
    (requestProcessing { freshEpisode 1 "g" with status := .downloading } =
      (.rejected, { freshEpisode 1 "g" with status := .downloading })) ∧
    (runsScheduled (requestProcessing (freshEpisode 1 "g")).1 +
      runsScheduled
        (requestProcessing
          { (requestProcessing (freshEpisode 1 "g")).2 with status := .downloading }).1
        = 1) :=
  ⟨requestProcessing_mutual_exclusion.1 _ rfl,
   (requestProcessing_mutual_exclusion.2 (freshEpisode 1 "g") .downloading
      (Or.inl rfl) rfl).2.2⟩

/-- C3: within one run the persisted statuses never move backward — for every
combination of stage outcomes the run trace, with its terminal `failed`
removed, is a subsequence of `pending, downloading, transcribing,
summarizing, completed`, and `failed` occurs only in terminal position;
the only backward status reset `requestProcessing` ever performs is taking a
`failed` episode back to `pending`. -/
theorem runPipeline_monotonic_stages :
    (∀ dl tr sm : Bool,
       isSubseqOf ((runTrace dl tr sm).filter (fun s => s != Status.failed)) stageOrder
         = true ∧
       (∀ i, i < (runTrace dl tr sm).length →
          (runTrace dl tr sm).getD i .new = .failed →
          i = (runTrace dl tr sm).length - 1)) ∧
    (∀ ep : Episode,
       stageRank (requestProcessing ep).2.status < stageRank ep.status →
       ep.status = .failed ∧ (requestProcessing ep).2.status = .pending) := by
  constructor
  · decide
  · intro ep h
    cases hs : ep.status <;>
      simp [requestProcessing, hs, stageRank] at h ⊢

/-- Witness for C3 at the download-failure trace and a concrete failed
episode. -/
theorem runPipeline_monotonic_stages_witness :
    isSubseqOf ((runTrace false true true).filter (fun s => s != Status.failed))
      stageOrder = true ∧
    (2 : Nat) = (runTrace false true true).length - 1 ∧
    (sampleFailed.status = .failed ∧
      (requestProcessing sampleFailed).2.status = .pending) :=
  ⟨(runPipeline_monotonic_stages.1 false true true).1,
   (runPipeline_monotonic_stages.1 false true true).2 2 (by decide) (by decide),
   runPipeline_monotonic_stages.2 sampleFailed (by decide)⟩

/-- C4: in every reachable persisted episode state, `error_message` is
non-null if and only if the status is `failed` — failures store a classified
message and every transition away from (or not into) `failed` leaves the
error null. -/
theorem errorMessage_iff_failed (ep : Episode) (h : Reachable ep) :
    ep.errorMessage ≠ none ↔ ep.status = .failed := by
  induction h with
  | created pid g => simp [freshEpisode]
  | step hr hstep ih =>
    cases hstep with
    | accept hp => simp
    | startDownload hp =>
      rw [hp] at ih
      simp at ih
      simp [ih]
    | startTranscribe hp =>
      rw [hp] at ih
      simp at ih
      simp [ih]
    | startSummarize t hp =>
      rw [hp] at ih
      simp at ih
      simp [ih]
    | complete s hp =>
      rw [hp] at ih
      simp at ih
      simp [ih]
    | fail raw hp => simp

/-- Witness for C4 at a concrete reachable state (a freshly created row). -/
theorem errorMessage_iff_failed_witness :
    (freshEpisode 1 "g").errorMessage ≠ none ↔ (freshEpisode 1 "g").status = .failed :=
  errorMessage_iff_failed (freshEpisode 1 "g") (Reachable.created 1 "g")

/-- C5: an accepted `requestProcessing` call on a `failed` episode puts it in
`pending` with a null `error_message` immediately after acceptance, so a
stale error is never observable alongside the in-progress retry. -/
theorem retry_clears_error (ep : Episode) (h : ep.status = .failed) :
    (requestProcessing ep).1 = .scheduled ∧
    (requestProcessing ep).2.status = .pending ∧
    (requestProcessing ep).2.errorMessage = none := by
  simp [requestProcessing, h]

/-- Witness for C5 at a concrete failed episode. -/
theorem retry_clears_error_witness :
    (requestProcessing sampleFailed).1 = .scheduled ∧
    (requestProcessing sampleFailed).2.status = .pending ∧
    (requestProcessing sampleFailed).2.errorMessage = none :=
  retry_clears_error sampleFailed rfl

/-- Counterexample for C6 as stated: a raw error string can match both a
"too large" pattern and a format-related substring and still be classified
as the (higher-precedence) rate-limit category, not "too large". -/
theorem classify_precedence_counterexample :
    matchesAny tooLargePatterns
        "429 rate limit: payload too large, bad audio format" = true ∧
    matchesAny unsupportedFormatPatterns
        "429 rate limit: payload too large, bad audio format" = true ∧
    classify "429 rate limit: payload too large, bad audio format"
      = .rateLimit ∧
    classify "429 rate limit: payload too large, bad audio format"
      ≠ .tooLarge := by
  refine ⟨by decide, by decide, by decide, by decide⟩

/-- C6 (amended): `classify` resolves every input to exactly one category of
the fixed taxonomy in precedence order with first match winning; provided no
higher-precedence quota/rate-limit pattern matches, a raw error matching a
"too large" pattern is classified "input exceeds size limit", never
"unsupported audio format"; and the full HTTP error detection — access
denied (403/401) and not found (404) — precedes the generic format check:
provided no higher-precedence pattern matches, an access-denied match is
classified "source blocked the request" and a not-found match "resource no
longer available", never "unsupported audio format". -/
theorem classify_precedence (raw : String) :
    (classify raw ∈ [ErrorCategory.rateLimit, .tooLarge, .accessDenied,
        .notFound, .unsupportedFormat, .network, .authConfig, .unknown]) ∧
    (matchesAny tooLargePatterns raw = true →
       matchesAny rateLimitPatterns raw = false →
       classify raw = .tooLarge) ∧
    (matchesAny accessDeniedPatterns raw = true →
       matchesAny rateLimitPatterns raw = false →
       matchesAny tooLargePatterns raw = false →
       classify raw = .accessDenied) ∧
    (matchesAny notFoundPatterns raw = true →
       matchesAny rateLimitPatterns raw = false →
       matchesAny tooLargePatterns raw = false →
       matchesAny accessDeniedPatterns raw = false →
       classify raw = .notFound) := by
  refine ⟨?_, ?_, ?_, ?_⟩
  · cases h : classify raw <;> simp
  · intro h1 h2
    simp [classify, h1, h2]
  · intro h1 h2 h3
    simp [classify, h1, h2, h3]
  · intro h1 h2 h3 h4
    simp [classify, h1, h2, h3, h4]

/-- Witness for C6 (amended) at concrete raw error strings, one per HTTP
error kind checked before the format check. -/
theorem classify_precedence_witness :
    classify "audio payload too large to format" = .tooLarge ∧
    classify "HTTP 403 Forbidden: bad format" = .accessDenied ∧
    classify "HTTP 404 Not Found: bad format" = .notFound :=
  ⟨(classify_precedence "audio payload too large to format").2.1
      (by decide) (by decide),
   (classify_precedence "HTTP 403 Forbidden: bad format").2.2.1
      (by decide) (by decide) (by decide),
   (classify_precedence "HTTP 404 Not Found: bad format").2.2.2
      (by decide) (by decide) (by decide) (by decide)⟩

/-- C7: when the estimated transcript size is within the chunk threshold,
summarization takes the single-call path exactly once and chunking is
skipped; when it exceeds the threshold, the chunked path performs at least
two per-chunk summarize calls plus exactly one merge call (and no
single-path call). -/
theorem summarize_chunking_threshold (maxTok : Nat) (hpos : 0 < maxTok)
    (summarizeWhole : List Char → Summary) (summarizeOne : List Char → String)
    (mergeChunks : List String → Summary) (text : List Char) :
    (estimateSize text ≤ maxTok →
       (summarizeTranscript maxTok summarizeWhole summarizeOne mergeChunks text).2
         = ⟨1, 0, 0⟩) ∧
    (maxTok < estimateSize text →
       2 ≤ (summarizeTranscript maxTok summarizeWhole summarizeOne mergeChunks text).2.perChunk ∧
       (summarizeTranscript maxTok summarizeWhole summarizeOne mergeChunks text).2.merge = 1 ∧
       (summarizeTranscript maxTok summarizeWhole summarizeOne mergeChunks text).2.single = 0) := by
  constructor
  · intro h
    simp [summarizeTranscript, h]
  · intro h
    have hnot : ¬ estimateSize text ≤ maxTok := by omega
    have hlen : chunkChars maxTok < text.length := by
      simp only [estimateSize] at h
      simp only [chunkChars]
      omega
    have hne : chunkChars maxTok ≠ 0 := by
      simp only [chunkChars]
      omega
    have hcount : 2 ≤ (chunkTranscript maxTok text).length := by
      simp only [chunkTranscript]
      exact chunk_count_ge_two (chunkChars maxTok) hne text hlen
    simp [summarizeTranscript, hnot, summarizeChunked, hcount]

/-- Witness for C7: a 4-character text with a 1-token threshold takes the
single path; a 12-character text exceeds it and is chunked into at least two
pieces plus one merge. -/
theorem summarize_chunking_threshold_witness :
    (summarizeTranscript 1 (fun _ => ⟨"e", "k", "q", "a"⟩) (fun _ => "p")
        (fun _ => ⟨"e", "k", "q", "a"⟩) "ab".toList).2 = ⟨1, 0, 0⟩ ∧
    2 ≤ (summarizeTranscript 1 (fun _ => ⟨"e", "k", "q", "a"⟩) (fun _ => "p")
        (fun _ => ⟨"e", "k", "q", "a"⟩) "abcdefghijkl".toList).2.perChunk :=
  ⟨(summarize_chunking_threshold 1 (by decide) _ _ _ "ab".toList).1 (by decide),
   ((summarize_chunking_threshold 1 (by decide) _ _ _ "abcdefghijkl".toList).2
      (by decide)).1⟩

/-- C8: for every text and positive `maxChunkSize`, the chunks are
non-overlapping pieces whose in-order concatenation reconstructs the text
exactly (hence their lengths sum to the text's length), every chunk is
within `maxChunkSize`, and the chunk count is the minimum achievable by any
decomposition into pieces within `maxChunkSize`. -/
theorem chunk_roundtrip (n : Nat) (hn : 0 < n) (text : List Char) :
    (chunk n text).flatten = text ∧
    ((chunk n text).map List.length).sum = text.length ∧
    (∀ c ∈ chunk n text, c.length ≤ n) ∧
    (∀ cs : List (List Char), cs.flatten = text →
       (∀ c ∈ cs, c.length ≤ n) →
       (chunk n text).length ≤ cs.length) := by
  refine ⟨chunk_join n text, ?_, chunk_chunkLength n hn text,
    fun cs hj hs => chunk_count_minimal n hn text cs hj hs⟩
  have := congrArg List.length (chunk_join n text)
  simpa [List.length_flatten] using this

/-- Witness for C8 at a concrete text and chunk size. -/
theorem chunk_roundtrip_witness :
    (chunk 2 "abcde".toList).flatten = "abcde".toList ∧
    ∀ c ∈ chunk 2 "abcde".toList, c.length ≤ 2 :=
  ⟨(chunk_roundtrip 2 (by decide) "abcde".toList).1,
   (chunk_roundtrip 2 (by decide) "abcde".toList).2.2.1⟩

/-- C9: the Rate-Limited API Client makes at most 3 attempts in total; before
every retry it sleeps the provider-specified wait plus the fixed safety
margin on a rate-limit error carrying a wait, the fixed default backoff on a
rate-limit error with no parseable wait, and an exponential backoff on any
other transient error; and if all attempts fail the last error is surfaced
to the caller as terminal. -/
theorem rateLimited_client_retry_policy (outcomes : Nat → ApiOutcome) :
    (callWithRetry outcomes).2.length + 1 ≤ 3 ∧
    (∀ i, i < (callWithRetry outcomes).2.length →
      ((∃ d, outcomes i = .rateLimited (some d) ∧
          (callWithRetry outcomes).2.getD i 0 = d + safetyMargin) ∨
       (outcomes i = .rateLimited none ∧
          (callWithRetry outcomes).2.getD i 0 = defaultBackoff) ∨
       (∃ m, outcomes i = .transient m ∧
          (callWithRetry outcomes).2.getD i 0 = 2 ^ i))) ∧
    ((∀ j, j < 3 → (outcomes j).isOk = false) →
      (callWithRetry outcomes).1 = .error (outcomes 2) ∧
      (callWithRetry outcomes).2.length = 2) := by
  have h := callLoop_spec outcomes 3 0
  refine ⟨?_, ?_, ?_⟩
  · have := h.1
    simp only [callWithRetry, maxAttempts]
    omega
  · intro i hi
    have h2 := h.2.1 i (by simpa [callWithRetry, maxAttempts] using hi)
    simp only [Nat.zero_add] at h2
    cases ho : outcomes i with
    | ok v => rw [ho] at h2; simp [ApiOutcome.isOk] at h2
    | rateLimited ra =>
      cases ra with
      | none =>
        right; left
        refine ⟨rfl, ?_⟩
        have := h2.1
        rw [ho] at this
        simpa [callWithRetry, maxAttempts, backoffFor] using this
      | some d =>
        left
        refine ⟨d, rfl, ?_⟩
        have := h2.1
        rw [ho] at this
        simpa [callWithRetry, maxAttempts, backoffFor] using this
    | transient m =>
      right; right
      refine ⟨m, rfl, ?_⟩
      have := h2.1
      rw [ho] at this
      simpa [callWithRetry, maxAttempts, backoffFor] using this
  · intro hall
    have h3 := h.2.2 (by intro j hj; simpa using hall j hj) (by omega)
    simpa [callWithRetry, maxAttempts] using h3

/-- Witness for C9: a provider that always answers with a rate-limit error
carrying a 10-second wait exhausts the 3 attempts and surfaces the error. -/
theorem rateLimited_client_retry_policy_witness :
    (callWithRetry fun _ => ApiOutcome.rateLimited (some 10)).1
      = .error (.rateLimited (some 10)) ∧
    (callWithRetry fun _ => ApiOutcome.rateLimited (some 10)).2.length = 2 :=
  (rateLimited_client_retry_policy fun _ => ApiOutcome.rateLimited (some 10)).2.2
    (by intro j hj; rfl)

/-- C10: the pagination component renders nothing when `totalPages <= 1`;
otherwise, for every in-range current page, the visible page window
`[startPage, endPage]` satisfies
`1 <= startPage <= currentPage <= endPage <= totalPages` and spans exactly
`min 5 totalPages` consecutive page numbers. -/
theorem pagination_window_spec (currentPage totalPages : Int) :
    (totalPages ≤ 1 → paginationWindow currentPage totalPages = none) ∧
    (2 ≤ totalPages → 1 ≤ currentPage → currentPage ≤ totalPages →
      ∃ s e, paginationWindow currentPage totalPages = some (s, e) ∧
        1 ≤ s ∧ s ≤ currentPage ∧ currentPage ≤ e ∧ e ≤ totalPages ∧
        e - s + 1 = min 5 totalPages) := by
  constructor
  · intro h
    simp [paginationWindow, h]
  · intro h2 hc1 hc2
    rw [paginationWindow, if_neg (by omega)]
    refine ⟨_, _, rfl, ?_⟩
    simp only [maxVisible]
    norm_num
    omega

/-- Witness for C10 at a concrete in-range page. -/
theorem pagination_window_spec_witness :
    ∃ s e, paginationWindow 3 10 = some (s, e) ∧
      1 ≤ s ∧ s ≤ 3 ∧ (3 : Int) ≤ e ∧ e ≤ 10 ∧
      e - s + 1 = min 5 10 :=
  (pagination_window_spec 3 10).2 (by decide) (by decide) (by decide)
